import Mathlib

/-!
Shallow embedding of the gluon-nlp estimator event handlers and batch
processors (src/gluonnlp/estimator), together with theorems settling the
specification claims.  Side effects on the external trainer and parameter
container are modelled as explicit action traces; tensors carry rational
values; the autograd record scope is modelled by an attached flag on hidden
states and a recorded flag on batch-processor results.
-/

namespace GluonNLP

/-- Effects a handler performs on the external trainer and on the parameter
container of the network. -/
inductive TrainerAction where
  | setGradReqAdd
  | zeroGrad
  | step (scale : ℚ)
  deriving DecidableEq, Repr

/-- State of TransformerGradientAccumulationHandler: configuration fields from
the constructor plus the mutable fields batch_id and loss_denom set at
epoch_begin.  tgt_valid_length values are token counts, hence naturals. -/
structure GradAccumHandler where
  gradInterval : ℕ
  batchSize : ℕ
  rescaleLoss : ℚ
  batchId : ℕ
  lossDenom : ℕ
  deriving DecidableEq, Repr

/-- Embeds TransformerGradientAccumulationHandler._update_gradient:
trainer.step(float(loss_denom) / batch_size / rescale_loss), zero all
gradients, reset loss_denom. -/
def GradAccumHandler.updateGradient (h : GradAccumHandler) :
    GradAccumHandler × List TrainerAction :=
  ({ h with lossDenom := 0 },
   [TrainerAction.step ((h.lossDenom : ℚ) / (h.batchSize : ℚ) / h.rescaleLoss),
    TrainerAction.zeroGrad])

/-- Embeds train_begin: set grad_req of every parameter to add, then zero all
gradients. -/
def GradAccumHandler.trainBegin (h : GradAccumHandler) :
    GradAccumHandler × List TrainerAction :=
  (h, [TrainerAction.setGradReqAdd, TrainerAction.zeroGrad])

/-- Embeds epoch_begin: reset batch_id and loss_denom. -/
def GradAccumHandler.epochBegin (h : GradAccumHandler) :
    GradAccumHandler × List TrainerAction :=
  ({ h with batchId := 0, lossDenom := 0 }, [])

/-- Embeds batch_end: add estimator.tgt_valid_length to loss_denom; on every
grad_interval-th batch perform the gradient update; increment batch_id. -/
def GradAccumHandler.batchEnd (h : GradAccumHandler) (tgtValidLength : ℕ) :
    GradAccumHandler × List TrainerAction :=
  let h1 : GradAccumHandler := { h with lossDenom := h.lossDenom + tgtValidLength }
  let r := if h1.batchId % h1.gradInterval = h1.gradInterval - 1
             then h1.updateGradient else (h1, [])
  ({ r.1 with batchId := r.1.batchId + 1 }, r.2)

/-- Embeds epoch_end: flush the pending gradient update when loss_denom is
positive. -/
def GradAccumHandler.epochEnd (h : GradAccumHandler) :
    GradAccumHandler × List TrainerAction :=
  if 0 < h.lossDenom then h.updateGradient else (h, [])

/-- State of MTGNMTLearningRateHandler. -/
structure GNMTLRHandler where
  epochId : ℕ
  epochs : ℕ
  lrUpdateFactor : ℚ
  deriving DecidableEq, Repr

/-- Embeds MTGNMTLearningRateHandler.epoch_end acting on the trainer learning
rate: once epoch_id + 1 reaches (epochs * 2) // 3 the rate is multiplied by
lr_update_factor; epoch_id is incremented. -/
def GNMTLRHandler.epochEnd (h : GNMTLRHandler) (lr : ℚ) : GNMTLRHandler × ℚ :=
  let lr2 := if h.epochs * 2 / 3 ≤ h.epochId + 1 then lr * h.lrUpdateFactor else lr
  ({ h with epochId := h.epochId + 1 }, lr2)

/-- Iterates epoch_end of the GNMT learning rate handler n times. -/
def GNMTLRHandler.runEpochs (h : GNMTLRHandler) (lr : ℚ) : ℕ → GNMTLRHandler × ℚ
  | 0 => (h, lr)
  | Nat.succ n =>
      let r := h.epochEnd lr
      r.1.runEpochs r.2 n

/-- State of MTTransformerParamUpdateHandler; the averaged parameters form a
map from parameter key to value, modelled as a function on an abstract key
type. -/
structure ParamUpdateHandler (κ : Type) where
  batchId : ℕ
  gradInterval : ℕ
  stepNum : ℕ
  avgStart : ℕ
  avgParam : Option (κ → ℚ)

/-- Embeds MTTransformerParamUpdateHandler._update_avg_param: if no average
exists yet, snapshot the current network parameters; then, when step_num
exceeds avg_start, move every averaged value toward the current parameter by
alpha = 1 / max(1, step_num - avg_start). -/
def ParamUpdateHandler.updateAvgParam {κ : Type} (h : ParamUpdateHandler κ)
    (netParams : κ → ℚ) : ParamUpdateHandler κ :=
  let avg : κ → ℚ :=
    match h.avgParam with
    | none => netParams
    | some a => a
  let avg2 : κ → ℚ :=
    if h.avgStart < h.stepNum then
      fun k => avg k +
        (1 / ((max 1 (h.stepNum - h.avgStart) : ℕ) : ℚ)) * (netParams k - avg k)
    else avg
  { h with avgParam := some avg2 }

/-- Embeds epoch_begin of the parameter update handler. -/
def ParamUpdateHandler.epochBegin {κ : Type} (h : ParamUpdateHandler κ) :
    ParamUpdateHandler κ :=
  { h with batchId := 0 }

/-- Embeds batch_end of the parameter update handler: increment step_num on
every grad_interval-th batch begin position, run the average update on every
grad_interval-th batch end position, then increment batch_id. -/
def ParamUpdateHandler.batchEnd {κ : Type} (h : ParamUpdateHandler κ)
    (netParams : κ → ℚ) : ParamUpdateHandler κ :=
  let h1 := if h.batchId % h.gradInterval = 0
              then { h with stepNum := h.stepNum + 1 } else h
  -- the step_num bump does not modify batch_id or grad_interval, so the
  -- second test reads the same values as the first
  let h2 := if h.batchId % h.gradInterval = h.gradInterval - 1
              then h1.updateAvgParam netParams else h1
  { h2 with batchId := h2.batchId + 1 }

/-- Embeds epoch_end of the parameter update handler. -/
def ParamUpdateHandler.epochEnd {κ : Type} (h : ParamUpdateHandler κ)
    (netParams : κ → ℚ) : ParamUpdateHandler κ :=
  h.updateAvgParam netParams

/-- Checkpoint files referenced by MTCheckpointHandler. -/
inductive CkptFile where
  | validBest
  | epochFile (n : ℕ)
  | averageParams
  | averageCheckpointFile (k : ℕ)
  deriving DecidableEq, Repr

/-- Effects MTCheckpointHandler performs on the file system and the model. -/
inductive CkptAction where
  | ndSaveAverage
  | saveNet (f : CkptFile)
  | setNetToAvgParam
  | loadNet (f : CkptFile)
  deriving DecidableEq, Repr

/-- Mutable state of MTCheckpointHandler relevant to epoch_end. -/
structure MTCheckpointState where
  bleuScore : ℚ
  currentEpoch : ℕ
  deriving DecidableEq, Repr

/-- Initial handler state: the constructor sets bleu_score to 0.0 and the
base handler starts current_epoch at 0. -/
def mtCheckpointInit : MTCheckpointState := ⟨0, 0⟩

/-- Embeds MTCheckpointHandler.epoch_end: save valid_best.params when the
estimator bleu score strictly exceeds the stored best, save the epoch-indexed
checkpoint unconditionally, increment current_epoch. -/
def MTCheckpointState.epochEnd (st : MTCheckpointState) (estimatorBleu : ℚ) :
    MTCheckpointState × List CkptAction :=
  let r := if st.bleuScore < estimatorBleu
    then ({ st with bleuScore := estimatorBleu },
          [CkptAction.saveNet CkptFile.validBest])
    else (st, [])
  ({ r.1 with currentEpoch := r.1.currentEpoch + 1 },
   r.2 ++ [CkptAction.saveNet (CkptFile.epochFile st.currentEpoch)])

/-- Runs epoch_end over a list of per-epoch estimator bleu scores,
concatenating the emitted file actions. -/
def MTCheckpointState.run (st : MTCheckpointState) :
    List ℚ → MTCheckpointState × List CkptAction
  | [] => (st, [])
  | b :: bs =>
      let r := st.epochEnd b
      let rest := r.1.run bs
      (rest.1, r.2 ++ rest.2)

/-- Constructor configuration of MTCheckpointHandler used by train_end. -/
structure MTCheckpointConfig where
  averageCheckpoint : Bool
  numAverages : ℕ
  averageStart : ℕ
  epochs : ℕ
  deriving DecidableEq, Repr

/-- Embeds MTCheckpointHandler.train_end: persist the averaged parameters when
they exist; then the average_checkpoint branch evaluates args.num_averages
where args is the varargs tuple of the method, which has no such attribute,
so that branch raises before writing anything further; otherwise either the
averaged parameters are written into the live model and saved, or the best
checkpoint is loaded back. -/
def mtCheckpointTrainEnd (cfg : MTCheckpointConfig) (avgParamExists : Bool) :
    List CkptAction × Option String :=
  let pre := if avgParamExists then [CkptAction.ndSaveAverage] else []
  if cfg.averageCheckpoint then
    (pre, some "AttributeError: num_averages is read from the varargs tuple")
  else if cfg.averageStart ≠ 0 then
    (pre ++ [CkptAction.setNetToAvgParam,
             CkptAction.saveNet CkptFile.averageParams], none)
  else
    (pre ++ [CkptAction.loadNet CkptFile.validBest], none)

/-- Models the parameter write-back loop of the average_checkpoint branch of
train_end, with num_averages taken from the handler as clearly intended: for
each successive checkpoint value p with loop index j, the parameter is
assigned (1 / (j + 1)) * (p - v).  The source assigns instead of adding, so
this is not the 1/(j+1)-weighted running mean. -/
def avgCkptWriteback : List ℚ → ℕ → ℚ → ℚ
  | [], _, v => v
  | p :: ps, j, v => avgCkptWriteback ps (j + 1) ((1 / ((j : ℚ) + 1)) * (p - v))

/-- Buffer state of ComputeBleuHandler: instance ids and decoded token
sequences, initialised empty in the constructor and never cleared. -/
structure BleuState (τ : Type) where
  allInstIds : List ℕ
  translationOut : List (List τ)
  deriving DecidableEq, Repr

/-- Embeds ComputeBleuHandler.batch_end: extend all_inst_ids with the batch
instance ids and translation_out with, for every decoded sample row, the
tokens at positions 1 to valid_length - 2 mapped through idx_to_token. -/
def bleuBatchEnd {τ : Type} (idxToToken : ℕ → τ) (st : BleuState τ)
    (instIds : List ℕ) (samples : List (List ℕ))
    (sampleValidLength : List ℕ) : BleuState τ :=
  { allInstIds := st.allInstIds ++ instIds,
    translationOut := st.translationOut ++
      (samples.zip sampleValidLength).map
        (fun sv => ((sv.1.drop 1).take (sv.2 - 2)).map idxToToken) }

/-- Embeds the reordering loop of ComputeBleuHandler.epoch_end (and the
identical loop of ValBleuHandler.epoch_end): place each buffered sentence at
the position given by its instance id, detokenizing according to the bleu
scheme; any scheme other than tweaked, 13a and intl raises
NotImplementedError, modelled as an error value. -/
def reorderLoop {τ : Type} (bleu : String) (detokenizer bpeToWords : List τ → List τ) :
    List (ℕ × List τ) → List (Option (List τ)) →
    Except Unit (List (Option (List τ)))
  | [], acc => Except.ok acc
  | p :: rest, acc =>
      if bleu = "tweaked" then
        reorderLoop bleu detokenizer bpeToWords rest (acc.set p.1 (some p.2))
      else if bleu = "13a" ∨ bleu = "intl" then
        reorderLoop bleu detokenizer bpeToWords rest
          (acc.set p.1 (some (detokenizer (bpeToWords p.2))))
      else Except.error ()

/-- Embeds the construction of real_translation_out in epoch_end: a list of
length len(all_inst_ids) initialised with None, filled by the reorder loop
over zip(all_inst_ids, translation_out). -/
def reorderTranslations {τ : Type} (bleu : String)
    (detokenizer bpeToWords : List τ → List τ) (allInstIds : List ℕ)
    (translationOut : List (List τ)) : Except Unit (List (Option (List τ))) :=
  reorderLoop bleu detokenizer bpeToWords (allInstIds.zip translationOut)
    (List.replicate allInstIds.length none)

/-- Embeds ComputeBleuHandler.epoch_end: reorder the buffered hypotheses and,
when no error is raised, record the score computed by the external bleu
function on the estimator. -/
def bleuEpochEnd {τ : Type} (bleu : String)
    (detokenizer bpeToWords : List τ → List τ)
    (computeBleuFn : List (Option (List τ)) → ℚ) (st : BleuState τ) :
    Except Unit ℚ :=
  match reorderTranslations bleu detokenizer bpeToWords st.allInstIds
      st.translationOut with
  | Except.error e => Except.error e
  | Except.ok out => Except.ok (computeBleuFn out)

/-- Buffer state rebuilt from scratch by ValBleuHandler.epoch_end while it
iterates over the validation data: per batch it extends the id and
translation buffers exactly as ComputeBleuHandler.batch_end does. -/
def valBleuState {τ : Type} (idxToToken : ℕ → τ)
    (valData : List (List ℕ × List (List ℕ) × List ℕ)) : BleuState τ :=
  valData.foldl (fun st b => bleuBatchEnd idxToToken st b.1 b.2.1 b.2.2)
    (⟨[], []⟩ : BleuState τ)

/-- Embeds ValBleuHandler.epoch_end: rebuild the id and translation buffers
from the validation data from scratch, then reorder and score exactly as
ComputeBleuHandler.epoch_end does. -/
def valBleuEpochEnd {τ : Type} (idxToToken : ℕ → τ) (bleu : String)
    (detokenizer bpeToWords : List τ → List τ)
    (computeBleuFn : List (Option (List τ)) → ℚ)
    (valData : List (List ℕ × List (List ℕ) × List ℕ)) : Except Unit ℚ :=
  bleuEpochEnd bleu detokenizer bpeToWords computeBleuFn
    (valBleuState idxToToken valData)

/-- Identity on token sequences, used as a concrete detokenizer and sub-word
merge function in closed instances. -/
def idTokens : List ℕ → List ℕ := fun s => s

/-- Identity on token indices, used as a concrete vocabulary in closed
instances. -/
def idIdx : ℕ → ℕ := fun i => i

/-- Constant external bleu function used in closed instances. -/
def constBleu : List (Option (List ℕ)) → ℚ := fun _ => 42

/-- A recurrent hidden-state tensor: its begin_state size, its value, and
whether it is attached to the autograd graph. -/
structure NDState where
  size : ℕ
  value : ℤ
  attached : Bool
  deriving DecidableEq, Repr

/-- Embeds estimator.detach: sever the tensor from the autograd graph while
preserving its value. -/
def NDState.detach (h : NDState) : NDState := { h with attached := false }

/-- Embeds net.begin_state with func mx.nd.zeros: a fresh zero-valued state
of the given size, not attached to any graph. -/
def beginStateND (n : ℕ) : NDState := ⟨n, 0, false⟩

/-- Embeds the hidden-state slot handling shared by fit_batch and
evaluate_batch: if the estimator slot is empty, build a zero state of size
batch_size / len(context) per device; otherwise detach the previous states. -/
def lmInitHiddens (numCtx batchSize : ℕ) (hiddens : Option (List NDState)) :
    List NDState :=
  match hiddens with
  | none => (List.range numCtx).map (fun _ => beginStateND (batchSize / numCtx))
  | some hs => hs.map NDState.detach

/-- Embeds gluon.utils.split_and_load with even_split on a rank-one tensor:
device i receives the i-th chunk of length len / numCtx. -/
def splitEven (numCtx : ℕ) (xs : List ℕ) : List (List ℕ) :=
  (List.range numCtx).map (fun i =>
    (xs.drop (i * (xs.length / numCtx))).take (xs.length / numCtx))

/-- Embeds split_and_load along axis 1 on a rank-two tensor (time steps in
the outer list): device i receives the i-th column chunk of every row. -/
def splitColsEven (numCtx : ℕ) (rows : List (List ℕ)) : List (List (List ℕ)) :=
  (List.range numCtx).map (fun i =>
    rows.map (fun r => (r.drop (i * (r.length / numCtx))).take (r.length / numCtx)))

/-- Result of LanguageModelBatchProcessor.fit_batch: the per-device hidden
states written back into the estimator slot, the per-device outputs and
losses, and whether the forward pass ran inside autograd.record. -/
structure LMFitResult where
  hiddens : List NDState
  outputs : List (List ℕ)
  losses : List ℚ
  recorded : Bool

/-- Embeds LanguageModelBatchProcessor.fit_batch on a rank-one batch: shift
the batch by one to obtain data and target, split both evenly across devices,
initialise or detach the hidden states, then per device run the network and
the loss inside autograd.record (so the produced hidden states are attached
to the graph), normalising each loss by len(context) * X.size; backward runs
per device; finally every loss is rescaled by len(context) * X.size where X
is the variable left over from the loop, i.e. the last shard. -/
def lmFitBatch (numCtx : ℕ) (net : List ℕ → NDState → List ℕ × NDState)
    (lossFn : List ℕ → List ℕ → ℚ) (hiddens : Option (List NDState))
    (trainBatch : List ℕ) : LMFitResult :=
  let data := trainBatch.dropLast
  let target := trainBatch.drop 1
  let batchSize := trainBatch.length
  let dataSh := splitEven numCtx data
  let targetSh := splitEven numCtx target
  let h0 := lmInitHiddens numCtx batchSize hiddens
  let zipped := dataSh.zip (targetSh.zip h0)
  let results := zipped.map (fun Xyh =>
    let r := net Xyh.1 Xyh.2.2
    (({ r.2 with attached := true } : NDState), r.1,
     lossFn r.1 Xyh.2.1 / ((numCtx : ℚ) * (Xyh.1.length : ℚ))))
  let lastX := (zipped.getLastD ([], [], beginStateND 0)).1
  { hiddens := results.map (fun r => r.1),
    outputs := results.map (fun r => r.2.1),
    losses := results.map
      (fun r => r.2.2 * ((numCtx : ℚ) * (lastX.length : ℚ))),
    recorded := true }

/-- Result of LanguageModelBatchProcessor.evaluate_batch. -/
structure LMEvalResult where
  hiddens : List NDState
  outputs : List (List ℕ)
  losses : List (List ℚ)
  recorded : Bool

/-- Embeds LanguageModelBatchProcessor.evaluate_batch on a rank-two batch
(batch_axis forced to 1): shift by one into data and target, split along the
batch axis, initialise or detach eval hidden states, then per device compute
the flattened per-position losses with the evaluation loss.  No
autograd.record scope is opened and no padding mask is applied. -/
def lmEvaluateBatch (numCtx : ℕ)
    (evalNet : List (List ℕ) → NDState → List ℕ × NDState)
    (evalLoss : ℕ → ℕ → ℚ) (evalHiddens : Option (List NDState))
    (valBatch : List (List ℕ)) : LMEvalResult :=
  let data := valBatch.dropLast
  let target := valBatch.drop 1
  let batchSize := (valBatch.headD []).length
  let dataSh := splitColsEven numCtx data
  let targetSh := splitColsEven numCtx target
  let h0 := lmInitHiddens numCtx batchSize evalHiddens
  let zipped := dataSh.zip (targetSh.zip h0)
  let results := zipped.map (fun Xyh =>
    let r := evalNet Xyh.1 Xyh.2.2
    (r.2, r.1, List.zipWith evalLoss r.1 Xyh.2.1.flatten))
  { hiddens := results.map (fun r => r.1),
    outputs := results.map (fun r => r.2.1),
    losses := results.map (fun r => r.2.2),
    recorded := false }

/-- Embeds the loss computation of
ParallelLanguageModelBatchProcessor.evaluate_batch: mask = data != padding,
loss = evaluation_loss(output, target * mask) * mask, per flattened
position. -/
def parallelEvalLoss (paddingToken : ℕ) (evalLoss : ℕ → ℕ → ℚ)
    (output data target : List ℕ) : List ℚ :=
  let mask := data.map (fun x => if x = paddingToken then (0 : ℕ) else 1)
  List.zipWith (fun l m => l * (m : ℚ))
    (List.zipWith evalLoss output (List.zipWith (fun t m => t * m) target mask))
    mask

/-- Identity network on a rank-one shard, used in closed instances. -/
def idNet : List ℕ → NDState → List ℕ × NDState := fun X h => (X, h)

/-- Network on a rank-two shard producing output one at every flattened
position, used in closed instances. -/
def constNet2D : List (List ℕ) → NDState → List ℕ × NDState :=
  fun X h => (X.flatten.map (fun _ => 1), h)

/-- A per-position evaluation loss that is always positive, used in closed
instances. -/
def addLoss : ℕ → ℕ → ℚ := fun o t => (o : ℚ) + (t : ℚ) + 1

/-- A constant training loss, used in closed instances. -/
def constLoss : List ℕ → List ℕ → ℚ := fun _ _ => 37

/-- C1: TransformerGradientAccumulationHandler: train_begin puts every
parameter gradient in additive mode and zeroes it; each batch_end adds the
batch token count to the running denominator; on every grad_interval-th batch
(batch_id mod grad_interval equals grad_interval - 1) the optimizer step runs
with scale denominator / (batch_size * rescale_loss), gradients are zeroed and
the denominator resets to zero; epoch_end performs the same step-zero-reset
exactly when the remaining denominator is non-zero. -/
theorem claim_C1_grad_accumulation (h : GradAccumHandler) (t : ℕ) :
    h.trainBegin = (h, [TrainerAction.setGradReqAdd, TrainerAction.zeroGrad]) ∧
    (h.epochBegin.1.batchId = 0 ∧ h.epochBegin.1.lossDenom = 0) ∧
    (h.batchEnd t).1.batchId = h.batchId + 1 ∧
    (h.batchEnd t).1.lossDenom =
      (if h.batchId % h.gradInterval = h.gradInterval - 1 then 0
       else h.lossDenom + t) ∧
    (h.batchEnd t).2 =
      (if h.batchId % h.gradInterval = h.gradInterval - 1 then
        [TrainerAction.step (((h.lossDenom + t : ℕ) : ℚ) /
           ((h.batchSize : ℚ) * h.rescaleLoss)),
         TrainerAction.zeroGrad]
       else []) ∧
    (h.epochEnd.2 ≠ [] ↔ h.lossDenom ≠ 0) ∧
    h.epochEnd =
      (if h.lossDenom ≠ 0 then
        ({ h with lossDenom := 0 },
         [TrainerAction.step ((h.lossDenom : ℚ) /
            ((h.batchSize : ℚ) * h.rescaleLoss)),
          TrainerAction.zeroGrad])
       else (h, [])) := by
  refine ⟨rfl, ⟨rfl, rfl⟩, ?_, ?_, ?_, ?_, ?_⟩
  · by_cases hm : h.batchId % h.gradInterval = h.gradInterval - 1 <;>
      simp [GradAccumHandler.batchEnd, GradAccumHandler.updateGradient, hm]
  · by_cases hm : h.batchId % h.gradInterval = h.gradInterval - 1 <;>
      simp [GradAccumHandler.batchEnd, GradAccumHandler.updateGradient, hm]
  · by_cases hm : h.batchId % h.gradInterval = h.gradInterval - 1 <;>
      simp [GradAccumHandler.batchEnd, GradAccumHandler.updateGradient, hm,
        div_div]
  · by_cases hd : h.lossDenom = 0 <;>
      simp [GradAccumHandler.epochEnd, GradAccumHandler.updateGradient, hd,
        Nat.pos_iff_ne_zero]
  · by_cases hd : h.lossDenom = 0 <;>
      simp [GradAccumHandler.epochEnd, GradAccumHandler.updateGradient, hd,
        Nat.pos_iff_ne_zero, div_div]

/-- C3 counterexample: with epochs = 3 the claim asserts the learning rate is
unchanged at every epoch index below ceil(2*3/3) = (2*3+2)/3 = 2, but at epoch
index 1 the code multiplies the rate by the decay factor: the condition it
tests is epoch_id + 1 at least (2*epochs) floor-div 3. -/
theorem claim_C3_counterexample :
    1 < (2 * 3 + 2) / 3 ∧
    (GNMTLRHandler.epochEnd ⟨1, 3, (1 : ℚ) / 2⟩ 1).2 ≠ 1 := by
  constructor
  · decide
  · norm_num [GNMTLRHandler.epochEnd]

theorem gnmtRunEpochs_general (E : ℕ) (c lr : ℚ) (e n : ℕ) :
    GNMTLRHandler.runEpochs ⟨e, E, c⟩ lr n =
      (⟨e + n, E, c⟩, lr * c ^ (n - min n (E * 2 / 3 - 1 - e))) := by
  induction n generalizing e lr with
  | zero => simp [GNMTLRHandler.runEpochs]
  | succ n ih =>
    by_cases hc : E * 2 / 3 ≤ e + 1
    · have h1 : E * 2 / 3 - 1 - e = 0 := by omega
      have h2 : E * 2 / 3 - 1 - (e + 1) = 0 := by omega
      simp only [GNMTLRHandler.runEpochs, GNMTLRHandler.epochEnd, if_pos hc, ih]
      rw [h1, h2]
      have he : e + 1 + n = e + (n + 1) := by omega
      rw [he, Nat.min_zero, Nat.min_zero, Nat.sub_zero, Nat.sub_zero]
      simp only [Prod.mk.injEq]
      refine ⟨trivial, by ring⟩
    · have h2 : n - min n (E * 2 / 3 - 1 - (e + 1)) =
          n + 1 - min (n + 1) (E * 2 / 3 - 1 - e) := by omega
      simp only [GNMTLRHandler.runEpochs, GNMTLRHandler.epochEnd, if_neg hc, ih]
      rw [h2]
      have he : e + 1 + n = e + (n + 1) := by omega
      rw [he]

/-- C3 (amended): starting from epoch index 0, iterating epoch_end n times
leaves the learning rate multiplied by the decay factor exactly
n - min n ((2*epochs)/3 - 1) times: the rate is unchanged for every epoch
index strictly below (2*epochs)/3 - 1 (floor division), and is multiplied by
the factor once per epoch from index (2*epochs)/3 - 1 onward, rather than
from ceil(2*epochs/3) as claimed. -/
theorem claim_C3_amended (E : ℕ) (c lr : ℚ) (n : ℕ) :
    GNMTLRHandler.runEpochs ⟨0, E, c⟩ lr n =
      (⟨n, E, c⟩, lr * c ^ (n - min n (E * 2 / 3 - 1))) := by
  have h := gnmtRunEpochs_general E c lr 0 n
  simpa using h

/-- C2: MTTransformerParamUpdateHandler: on the first average-update
invocation the current parameters are snapshotted as the average; whenever
the step counter exceeds the configured start, every averaged parameter moves
by (1 / max(1, step_num - avg_start)) * (current - avg); the update runs on
every grad_interval-th batch end (after the step counter bump performed when
batch_id mod grad_interval is zero) and again at every epoch end. -/
theorem claim_C2_param_average {κ : Type} (p a : κ → ℚ)
    (h : ParamUpdateHandler κ) :
    (({ h with avgParam := none } : ParamUpdateHandler κ).updateAvgParam
        p).avgParam = some p ∧
    (({ h with avgParam := some a } : ParamUpdateHandler κ).updateAvgParam
        p).avgParam =
      some (fun k =>
        if h.avgStart < h.stepNum then
          a k + (1 / ((max 1 (h.stepNum - h.avgStart) : ℕ) : ℚ)) * (p k - a k)
        else a k) ∧
    (h.epochEnd p).avgParam = (h.updateAvgParam p).avgParam ∧
    (h.batchEnd p).avgParam =
      (if h.batchId % h.gradInterval = h.gradInterval - 1 then
        ((if h.batchId % h.gradInterval = 0
            then { h with stepNum := h.stepNum + 1 }
            else h).updateAvgParam p).avgParam
       else h.avgParam) := by
  refine ⟨?_, ?_, rfl, ?_⟩
  · simp only [ParamUpdateHandler.updateAvgParam]
    split_ifs with hs
    · exact congrArg some (funext fun k => by ring)
    · rfl
  · simp only [ParamUpdateHandler.updateAvgParam]
    split_ifs with hs <;> simp [hs]
  · simp only [ParamUpdateHandler.batchEnd]
    split_ifs <;> rfl

/-- C10: MTCheckpointHandler.epoch_end writes valid_best.params exactly when
the estimator bleu score strictly exceeds the stored best (initially zero),
always writes the epoch-indexed checkpoint, and increments current_epoch by
one; in particular a run whose score stays zero every epoch writes only the
epoch files epoch0 .. epoch(n-1) and never valid_best.params. -/
theorem claim_C10_checkpoint (st : MTCheckpointState) (b : ℚ) (n : ℕ) :
    (CkptAction.saveNet CkptFile.validBest ∈ (st.epochEnd b).2 ↔
      st.bleuScore < b) ∧
    CkptAction.saveNet (CkptFile.epochFile st.currentEpoch) ∈
      (st.epochEnd b).2 ∧
    (st.epochEnd b).1.currentEpoch = st.currentEpoch + 1 ∧
    mtCheckpointInit.bleuScore = 0 ∧
    (MTCheckpointState.run mtCheckpointInit (List.replicate n 0)).2 =
      (List.range n).map (fun i => CkptAction.saveNet (CkptFile.epochFile i)) ∧
    CkptAction.saveNet CkptFile.validBest ∉
      (MTCheckpointState.run mtCheckpointInit (List.replicate n 0)).2 := by
  have hrun : ∀ (m e : ℕ),
      MTCheckpointState.run ⟨0, e⟩ (List.replicate m 0) =
        (⟨0, e + m⟩, (List.range' e m).map
          (fun i => CkptAction.saveNet (CkptFile.epochFile i))) := by
    intro m
    induction m with
    | zero => intro e; simp [MTCheckpointState.run]
    | succ m ih =>
      intro e
      have hme : e + (m + 1) = (e + 1) + m := by omega
      simp [List.replicate_succ, MTCheckpointState.run,
        MTCheckpointState.epochEnd, ih, List.range'_succ, hme]
  refine ⟨?_, ?_, ?_, rfl, ?_, ?_⟩
  · by_cases hb : st.bleuScore < b <;> simp [MTCheckpointState.epochEnd, hb]
  · by_cases hb : st.bleuScore < b <;> simp [MTCheckpointState.epochEnd, hb]
  · by_cases hb : st.bleuScore < b <;> simp [MTCheckpointState.epochEnd, hb]
  · rw [mtCheckpointInit, hrun n 0, List.range_eq_range']
  · rw [mtCheckpointInit, hrun n 0]
    simp

/-- C5: at train end the average_checkpoint branch of
MTCheckpointHandler.train_end crashes: it reads num_averages from the varargs
tuple, so after persisting average.params nothing else is written and no
average_checkpoint file is produced; moreover the write-back loop assigns
(1/(j+1)) * (checkpoint - param) instead of adding it, so on two identical
checkpoints of value 2 it produces 0 rather than their 1/(j+1)-weighted
running mean 2.  The other two branches behave as the claim states. -/
theorem claim_C5_train_end_bug :
    (mtCheckpointTrainEnd ⟨true, 2, 0, 2⟩ true).2.isSome = true ∧
    (mtCheckpointTrainEnd ⟨true, 2, 0, 2⟩ true).1 =
      [CkptAction.ndSaveAverage] ∧
    avgCkptWriteback [2, 2] 0 0 = 0 ∧ ((0 : ℚ) ≠ 2) ∧
    (mtCheckpointTrainEnd ⟨false, 0, 1, 2⟩ true).2 = none ∧
    (mtCheckpointTrainEnd ⟨false, 0, 1, 2⟩ true).1 =
      [CkptAction.ndSaveAverage, CkptAction.setNetToAvgParam,
       CkptAction.saveNet CkptFile.averageParams] ∧
    (mtCheckpointTrainEnd ⟨false, 0, 0, 2⟩ false).1 =
      [CkptAction.loadNet CkptFile.validBest] := by
  refine ⟨rfl, rfl, ?_, by norm_num, rfl, rfl, rfl⟩
  norm_num [avgCkptWriteback]

/-- C4: ComputeBleuHandler never clears its buffers between epochs: running
the same single-instance batch in two consecutive epochs leaves instance id 0
observed twice in the second epoch, and the reordered output of the second
epoch_end has length two with a None hole at position 1, violating the
claimed once-per-epoch invariant; the first epoch behaves as claimed. -/
theorem claim_C4_buffer_bug :
    (bleuBatchEnd idIdx (⟨[], []⟩ : BleuState ℕ) [0] [[1, 2, 3]]
        [3]).allInstIds.count 0 = 1 ∧
    reorderTranslations "tweaked" idTokens idTokens
      (bleuBatchEnd idIdx (⟨[], []⟩ : BleuState ℕ) [0] [[1, 2, 3]]
        [3]).allInstIds
      (bleuBatchEnd idIdx (⟨[], []⟩ : BleuState ℕ) [0] [[1, 2, 3]]
        [3]).translationOut = Except.ok [some [2]] ∧
    (bleuBatchEnd idIdx
        (bleuBatchEnd idIdx (⟨[], []⟩ : BleuState ℕ) [0] [[1, 2, 3]] [3])
        [0] [[1, 2, 3]] [3]).allInstIds.count 0 = 2 ∧
    reorderTranslations "tweaked" idTokens idTokens
      (bleuBatchEnd idIdx
        (bleuBatchEnd idIdx (⟨[], []⟩ : BleuState ℕ) [0] [[1, 2, 3]] [3])
        [0] [[1, 2, 3]] [3]).allInstIds
      (bleuBatchEnd idIdx
        (bleuBatchEnd idIdx (⟨[], []⟩ : BleuState ℕ) [0] [[1, 2, 3]] [3])
        [0] [[1, 2, 3]] [3]).translationOut =
      Except.ok [some [2], none] := by
  refine ⟨rfl, rfl, rfl, rfl⟩

/-- C7 counterexample: with an empty translation buffer the reorder loop body
never executes, so epoch_end with the unsupported scheme sacre raises no
error and invokes the external bleu function, contradicting the claim that
every unsupported scheme aborts evaluation. -/
theorem claim_C7_counterexample :
    ("sacre" ≠ "tweaked" ∧ "sacre" ≠ "13a" ∧ "sacre" ≠ "intl") ∧
    bleuEpochEnd "sacre" idTokens idTokens constBleu
      (⟨[], []⟩ : BleuState ℕ) = Except.ok 42 := by
  exact ⟨⟨by decide, by decide, by decide⟩, rfl⟩

theorem reorderLoop_unsupported {τ : Type} (bleu : String)
    (detokenizer bpeToWords : List τ → List τ)
    (h1 : bleu ≠ "tweaked") (h2 : bleu ≠ "13a") (h3 : bleu ≠ "intl")
    (p : ℕ × List τ) (rest : List (ℕ × List τ))
    (acc : List (Option (List τ))) :
    reorderLoop bleu detokenizer bpeToWords (p :: rest) acc =
      Except.error () := by
  simp [reorderLoop, h1, h2, h3]

theorem reorderLoop_supported {τ : Type} (bleu : String)
    (hsup : bleu = "tweaked" ∨ bleu = "13a" ∨ bleu = "intl")
    (detokenizer bpeToWords : List τ → List τ) :
    ∀ (l : List (ℕ × List τ)) (acc : List (Option (List τ))),
      ∃ out, reorderLoop bleu detokenizer bpeToWords l acc =
        Except.ok out := by
  intro l
  induction l with
  | nil => intro acc; exact ⟨acc, rfl⟩
  | cons p rest ih =>
    intro acc
    rcases hsup with h | h | h
    · subst h
      simp only [reorderLoop]
      rw [if_pos trivial]
      exact ih _
    · subst h
      simp only [reorderLoop]
      rw [if_pos (Or.inl trivial)]
      exact ih _
    · subst h
      simp only [reorderLoop]
      rw [if_pos (Or.inr trivial)]
      exact ih _

/-- C7 (amended): any detokenization scheme other than tweaked, 13a and intl
makes epoch_end of ComputeBleuHandler, and likewise of ValBleuHandler, raise
an unimplemented-feature error without invoking the bleu function or
updating the score, provided at least one buffered instance exists (the
check sits inside the loop over buffered instances, so with an empty buffer
nothing is raised); for the three supported schemes no error is raised. -/
theorem claim_C7_amended {τ : Type} (bleu : String)
    (detokenizer bpeToWords : List τ → List τ)
    (computeBleuFn : List (Option (List τ)) → ℚ) (st : BleuState τ)
    (idxToToken : ℕ → τ)
    (valData : List (List ℕ × List (List ℕ) × List ℕ)) :
    (bleu ≠ "tweaked" → bleu ≠ "13a" → bleu ≠ "intl" →
      st.allInstIds.zip st.translationOut ≠ [] →
      bleuEpochEnd bleu detokenizer bpeToWords computeBleuFn st =
        Except.error ()) ∧
    (bleu ≠ "tweaked" → bleu ≠ "13a" → bleu ≠ "intl" →
      (valBleuState idxToToken valData).allInstIds.zip
        (valBleuState idxToToken valData).translationOut ≠ [] →
      valBleuEpochEnd idxToToken bleu detokenizer bpeToWords computeBleuFn
        valData = Except.error ()) ∧
    ((bleu = "tweaked" ∨ bleu = "13a" ∨ bleu = "intl") →
      (bleuEpochEnd bleu detokenizer bpeToWords computeBleuFn st).isOk =
        true) := by
  have key : ∀ (s : BleuState τ), s.allInstIds.zip s.translationOut ≠ [] →
      bleu ≠ "tweaked" → bleu ≠ "13a" → bleu ≠ "intl" →
      bleuEpochEnd bleu detokenizer bpeToWords computeBleuFn s =
        Except.error () := by
    intro s hne h1 h2 h3
    obtain ⟨p, rest, hz⟩ := List.exists_cons_of_ne_nil hne
    rw [bleuEpochEnd, reorderTranslations, hz,
      reorderLoop_unsupported bleu detokenizer bpeToWords h1 h2 h3]
  refine ⟨fun h1 h2 h3 hne => key st hne h1 h2 h3,
          fun h1 h2 h3 hne => key _ hne h1 h2 h3, ?_⟩
  intro hsup
  obtain ⟨out, hout⟩ := reorderLoop_supported bleu hsup detokenizer bpeToWords
    (st.allInstIds.zip st.translationOut)
    (List.replicate st.allInstIds.length none)
  rw [bleuEpochEnd, reorderTranslations, hout]
  rfl

/-- C7 witness: concrete instances discharging the hypotheses of the amended
claim for both handlers and for a supported scheme. -/
theorem claim_C7_witness :
    bleuEpochEnd "xx" idTokens idTokens constBleu
      (⟨[0], [[2]]⟩ : BleuState ℕ) = Except.error () ∧
    valBleuEpochEnd idIdx "xx" idTokens idTokens constBleu
      [([0], [[1, 2, 3]], [3])] = Except.error () ∧
    (bleuEpochEnd "tweaked" idTokens idTokens constBleu
      (⟨[0], [[2]]⟩ : BleuState ℕ)).isOk = true :=
  ⟨(claim_C7_amended "xx" idTokens idTokens constBleu ⟨[0], [[2]]⟩ idIdx
      [([0], [[1, 2, 3]], [3])]).1 (by decide) (by decide) (by decide)
      (by decide),
   (claim_C7_amended "xx" idTokens idTokens constBleu ⟨[0], [[2]]⟩ idIdx
      [([0], [[1, 2, 3]], [3])]).2.1 (by decide) (by decide) (by decide)
      (by decide),
   (claim_C7_amended "tweaked" idTokens idTokens constBleu ⟨[0], [[2]]⟩ idIdx
      [([0], [[1, 2, 3]], [3])]).2.2 (Or.inl rfl)⟩

/-- C8: fit_batch hidden-state protocol: with an empty slot the per-device
initial states are zero-valued, detached, and sized batch_size divided by
the number of devices; with a non-empty slot every previous state is reused
detached (value preserved, attachment severed); and after the call the slot
holds exactly the net-produced states, all attached to the graph by the
record scope. -/
theorem claim_C8_hidden_state (numCtx : ℕ)
    (net : List ℕ → NDState → List ℕ × NDState)
    (lossFn : List ℕ → List ℕ → ℚ) (hs : List NDState)
    (b : Option (List NDState)) (trainBatch : List ℕ) :
    lmInitHiddens numCtx trainBatch.length none =
      List.replicate numCtx
        (⟨trainBatch.length / numCtx, 0, false⟩ : NDState) ∧
    (lmInitHiddens numCtx trainBatch.length (some hs)).map NDState.value =
      hs.map NDState.value ∧
    (lmInitHiddens numCtx trainBatch.length (some hs)).all
      (fun h => !h.attached) = true ∧
    (lmFitBatch numCtx net lossFn b trainBatch).hiddens.all
      (fun h => h.attached) = true ∧
    (lmFitBatch numCtx net lossFn b trainBatch).hiddens.map NDState.value =
      ((splitEven numCtx trainBatch.dropLast).zip
        ((splitEven numCtx (trainBatch.drop 1)).zip
          (lmInitHiddens numCtx trainBatch.length b))).map
        (fun Xyh => (net Xyh.1 Xyh.2.2).2.value) := by
  refine ⟨?_, ?_, ?_, ?_, ?_⟩
  · simp [lmInitHiddens, beginStateND, List.map_const', List.length_range]
  · simp only [lmInitHiddens, List.map_map]
    rfl
  · simp [lmInitHiddens, NDState.detach, List.all_map, Function.comp]
  · simp only [lmFitBatch, List.map_map, List.all_eq_true]
    intro x hx
    rw [List.mem_map] at hx
    obtain ⟨Xyh, hmem, rfl⟩ := hx
    rfl
  · simp only [lmFitBatch, List.map_map]
    rfl

theorem splitEven_length_mem (numCtx : ℕ) (xs : List ℕ) (X : List ℕ)
    (hdvd : numCtx ∣ xs.length) (hX : X ∈ splitEven numCtx xs) :
    X.length = xs.length / numCtx := by
  obtain ⟨i, hi, rfl⟩ := List.mem_map.mp hX
  have hi2 : i + 1 ≤ numCtx := List.mem_range.mp hi
  have hmul : xs.length / numCtx * numCtx = xs.length := Nat.div_mul_cancel hdvd
  have hs2 : i * (xs.length / numCtx) + xs.length / numCtx ≤ xs.length := by
    have h1 : (i + 1) * (xs.length / numCtx) ≤ numCtx * (xs.length / numCtx) :=
      Nat.mul_le_mul_right _ hi2
    rwa [Nat.succ_mul, Nat.mul_comm numCtx (xs.length / numCtx), hmul] at h1
  rw [List.length_take, List.length_drop]
  exact Nat.min_eq_left (Nat.le_sub_of_add_le (by rwa [Nat.add_comm] at hs2))

/-- C9: loss rescaling round trip in fit_batch: when the shifted batch splits
evenly and non-trivially across the device list, the losses handed back to
the caller are exactly the unnormalized per-device loss values, the inner
normalization by len(context) * X.size having been undone by the final
rescale (which reads X.size off the last shard, equal to every shard under
an even split). -/
theorem claim_C9_loss_rescale (numCtx : ℕ)
    (net : List ℕ → NDState → List ℕ × NDState)
    (lossFn : List ℕ → List ℕ → ℚ) (b : Option (List NDState))
    (trainBatch : List ℕ)
    (hpos : 0 < numCtx)
    (hdvd : numCtx ∣ trainBatch.dropLast.length)
    (hlen : numCtx ≤ trainBatch.dropLast.length)
    (hh : (lmInitHiddens numCtx trainBatch.length b).length = numCtx) :
    (lmFitBatch numCtx net lossFn b trainBatch).losses =
      ((splitEven numCtx trainBatch.dropLast).zip
        ((splitEven numCtx (trainBatch.drop 1)).zip
          (lmInitHiddens numCtx trainBatch.length b))).map
        (fun Xyh => lossFn (net Xyh.1 Xyh.2.2).1 Xyh.2.1) := by
  have hslen : ∀ X ∈ splitEven numCtx trainBatch.dropLast,
      X.length = trainBatch.dropLast.length / numCtx :=
    fun X hX => splitEven_length_mem numCtx _ X hdvd hX
  have hdlen : (splitEven numCtx trainBatch.dropLast).length = numCtx := by
    simp [splitEven, List.length_range]
  have htlen : (splitEven numCtx (trainBatch.drop 1)).length = numCtx := by
    simp [splitEven, List.length_range]
  have hzlen : ((splitEven numCtx trainBatch.dropLast).zip
      ((splitEven numCtx (trainBatch.drop 1)).zip
        (lmInitHiddens numCtx trainBatch.length b))).length = numCtx := by
    rw [List.length_zip, List.length_zip, hdlen, htlen, hh]
    omega
  have hzne : ((splitEven numCtx trainBatch.dropLast).zip
      ((splitEven numCtx (trainBatch.drop 1)).zip
        (lmInitHiddens numCtx trainBatch.length b))) ≠ [] := by
    intro hnil
    rw [hnil] at hzlen
    simp at hzlen
    omega
  have hlast : ((((splitEven numCtx trainBatch.dropLast).zip
      ((splitEven numCtx (trainBatch.drop 1)).zip
        (lmInitHiddens numCtx trainBatch.length b))).getLastD
      ([], [], beginStateND 0)).1).length =
      trainBatch.dropLast.length / numCtx := by
    rw [List.getLastD_eq_getLast?, List.getLast?_eq_getLast _ hzne,
      Option.getD_some]
    exact hslen _ (List.of_mem_zip (List.getLast_mem hzne)).1
  have hs1 : 1 ≤ trainBatch.dropLast.length / numCtx :=
    (Nat.one_le_div_iff hpos).mpr hlen
  have hc : ((numCtx : ℚ) * ((trainBatch.dropLast.length / numCtx : ℕ) : ℚ)) ≠ 0 := by
    have hn0 : (numCtx : ℚ) ≠ 0 := by
      exact_mod_cast Nat.pos_iff_ne_zero.mp hpos
    have hs0 : ((trainBatch.dropLast.length / numCtx : ℕ) : ℚ) ≠ 0 := by
      exact_mod_cast Nat.pos_iff_ne_zero.mp hs1
    exact mul_ne_zero hn0 hs0
  simp only [lmFitBatch, List.map_map]
  rw [hlast]
  apply List.map_congr_left
  intro Xyh hXyh
  have hX : Xyh.1 ∈ splitEven numCtx trainBatch.dropLast :=
    (List.of_mem_zip hXyh).1
  simp only [Function.comp]
  rw [hslen _ hX]
  exact div_mul_cancel₀ _ hc

/-- C9 witness: a concrete one-device batch that splits evenly, on which the
returned loss equals the unnormalized loss value 37. -/
theorem claim_C9_witness :
    (lmFitBatch 1 idNet constLoss none [1, 2]).losses = [37] := by
  rw [claim_C9_loss_rescale 1 idNet constLoss none [1, 2] (by decide)
    (by norm_num) (by norm_num) (by rfl)]
  rfl

/-- C6 counterexample: LanguageModelBatchProcessor.evaluate_batch applies no
padding mask: on the rank-two batch with time-major rows [[5],[0],[3]] and
padding token 0, the data position 1 holds the padding token, yet the
returned per-device loss at that position is 5, not 0, so padding
contributions are not excluded as claimed. -/
theorem claim_C6_counterexample :
    (lmEvaluateBatch 1 constNet2D addLoss none [[5], [0], [3]]).losses =
      [[2, 5]] ∧
    ([[5], [0], [3]] : List (List ℕ)).dropLast.flatten.getD 1 9 = 0 ∧
    (((lmEvaluateBatch 1 constNet2D addLoss none
        [[5], [0], [3]]).losses.getD 0 []).getD 1 0 = 5) ∧
    ((5 : ℚ) ≠ 0) := by
  have hloss : (lmEvaluateBatch 1 constNet2D addLoss none
      [[5], [0], [3]]).losses = [[2, 5]] := by
    norm_num [lmEvaluateBatch, splitColsEven, lmInitHiddens, beginStateND,
      constNet2D, addLoss, List.range_succ]
  refine ⟨hloss, by decide, ?_, by norm_num⟩
  rw [hloss]
  rfl

/-- C6 (amended): evaluate_batch of LanguageModelBatchProcessor runs outside
any gradient-recording scope but applies no padding mask: its returned
per-device losses are the raw per-position evaluation losses.  The padding
mask appears only in ParallelLanguageModelBatchProcessor.evaluate_batch,
whose returned loss is zero at every position whose input token is the
padding token. -/
theorem parallelEvalLoss_padding (pad : ℕ) (f : ℕ → ℕ → ℚ) :
    ∀ (output data target : List ℕ) (i : ℕ),
      i < data.length → data.getD i 0 = pad →
      (parallelEvalLoss pad f output data target).getD i 0 = 0 := by
  intro output
  induction output with
  | nil => intro data target i _ _; simp [parallelEvalLoss]
  | cons a out ih =>
    intro data target i hd hpad
    cases data with
    | nil => simp at hd
    | cons d ds =>
      cases target with
      | nil => simp [parallelEvalLoss]
      | cons t ts =>
        cases i with
        | zero =>
          rw [List.getD_cons_zero] at hpad
          subst hpad
          simp [parallelEvalLoss]
        | succ i =>
          have hd2 : i < ds.length := by simpa using hd
          have hp2 : ds.getD i 0 = pad := by simpa using hpad
          have hrec := ih ds ts i hd2 hp2
          simpa [parallelEvalLoss] using hrec

/-- C6 (amended): evaluate_batch of LanguageModelBatchProcessor runs outside
any gradient-recording scope but applies no padding mask: its returned
per-device losses are the raw per-position evaluation losses.  The padding
mask appears only in ParallelLanguageModelBatchProcessor.evaluate_batch,
whose returned loss is zero at every position whose input token is the
padding token. -/
theorem claim_C6_amended (numCtx : ℕ)
    (evalNet : List (List ℕ) → NDState → List ℕ × NDState)
    (evalLoss : ℕ → ℕ → ℚ) (evalHiddens : Option (List NDState))
    (valBatch : List (List ℕ)) (paddingToken : ℕ)
    (output data target : List ℕ) (i : ℕ)
    (hd : i < data.length)
    (hpad : data.getD i 0 = paddingToken) :
    (lmEvaluateBatch numCtx evalNet evalLoss evalHiddens valBatch).recorded =
      false ∧
    (lmEvaluateBatch numCtx evalNet evalLoss evalHiddens valBatch).losses =
      ((splitColsEven numCtx valBatch.dropLast).zip
        ((splitColsEven numCtx (valBatch.drop 1)).zip
          (lmInitHiddens numCtx (valBatch.headD []).length evalHiddens))).map
        (fun Xyh =>
          List.zipWith evalLoss (evalNet Xyh.1 Xyh.2.2).1 Xyh.2.1.flatten) ∧
    (parallelEvalLoss paddingToken evalLoss output data target).getD i 0 =
      0 := by
  refine ⟨rfl, ?_, ?_⟩
  · simp only [lmEvaluateBatch, List.map_map]
    rfl
  · exact parallelEvalLoss_padding paddingToken evalLoss output data target
      i hd hpad

/-- C6 witness: a concrete padding position at which the parallel variant
returns a zero loss, discharging the index hypotheses of the amended
claim. -/
theorem claim_C6_witness :
    (parallelEvalLoss 0 addLoss [1, 1] [5, 0] [0, 3]).getD 1 0 = 0 :=
  (claim_C6_amended 1 constNet2D addLoss none [[5], [0], [3]] 0 [1, 1]
    [5, 0] [0, 3] 1 (by decide) (by decide)).2.2

end GluonNLP
